import Mathlib

/-!
Shallow embedding of the Nova chat front-end (src/app.py) and proofs of the
specification claims. The app is a single-file Streamlit UI over a local
Ollama HTTP backend; the embedding models its pure data flow: preset
registry, message assembly, the streaming chat client's line loop, title
sanitization and JSON snapshot building, markdown export, and the
interaction loop's exception handling. File IO, HTTP and widget rendering
are abstracted into explicit inputs (a backend behaviour value, clock
samples), faithful to the control flow of the Python source.
-/

namespace Nova

/-- A chat message, Python dict with keys role and content (src/app.py
passes messages as a list of such dicts). -/
structure Message where
  role : String
  content : String
deriving DecidableEq, Repr

/-- Python whitespace for str.strip with no argument (ASCII fragment:
space, tab, newline, carriage return, vertical tab, form feed). -/
def pyIsSpace (c : Char) : Bool :=
  c = ' ' || c = '\t' || c = '\n' || c = '\r' || c = '\x0b' || c = '\x0c'

/-- List-level str.strip: drop whitespace from the front, then from the
back. -/
def stripList (l : List Char) : List Char :=
  (l.dropWhile pyIsSpace).rdropWhile pyIsSpace

/-- Python str.strip() with no argument, on the ASCII whitespace set. -/
def pyStrip (s : String) : String :=
  String.mk (stripList s.data)

/-- Python str.capitalize(): first character uppercased, the rest
lowercased (ASCII model). -/
def pyCapitalize (s : String) : String :=
  match s.data with
  | [] => ""
  | c :: rest => String.mk (c.toUpper :: rest.map Char.toLower)

/-- The four keys of the PRESETS dict in src/app.py, in order:
"Nova (Default)", "Nova — MBA / Finance", "Nova — Lawyer Mode",
"Nova — Engineering Mode". -/
inductive PresetName where
  | default
  | mbaFinance
  | lawyer
  | engineering
deriving DecidableEq, Repr

/-- The PRESETS dict of src/app.py: preset name to system-prompt string,
transcribed verbatim. -/
def PRESETS : PresetName → String
  | .default =>
      "You are Nova: a sharp, pragmatic, structured assistant.\nRules:\n- Be concise but complete.\n- Prefer bullet points, checklists, and templates.\n- If key info is missing, ask up to 3 targeted questions.\n- If uncertain, say what you’re unsure about and what would confirm it.\n- End with \"Next steps\" when the user is asking for a plan."
  | .mbaFinance =>
      "You are Nova, acting as an MBA/finance copilot.\nRules:\n- Use structured thinking: assumptions → drivers → math/logic → conclusion.\n- Provide models/frameworks (DCF, comps, LBO, WACC) when relevant.\n- Include a short “Risks / Watch-outs” section for decisions.\n- Be concise; use bullets and tables (plain text) where helpful."
  | .lawyer =>
      "You are Nova, acting as a careful legal drafting assistant (not a lawyer).\nRules:\n- Ask clarifying questions when jurisdiction/facts matter.\n- Separate: Facts / Issues / Options / Risks / Suggested Draft Language.\n- Avoid overconfident statements; flag uncertainty.\n- For drafts, use clean headings and formal tone."
  | .engineering =>
      "You are Nova, an engineering copilot.\nRules:\n- Be technical, precise, and action-oriented.\n- When debugging, ask for minimal reproducible details.\n- Provide step-by-step procedures and verification checks.\n- Use numbered steps and short code snippets when helpful."

/-- The Python exception classes relevant to the app: requests
RequestException (transport errors: connection failure, raise_for_status,
mid-stream chunk errors) versus json.JSONDecodeError (a ValueError, not a
RequestException). -/
inductive PyError where
  | requestException (msg : String)
  | jsonDecodeError
deriving DecidableEq, Repr

/-- One parsed chunk of the newline-delimited streaming response:
content is present when the JSON object has a message field with a
content field; done models a truthy done flag. -/
structure Chunk where
  content : Option String
  done : Bool
deriving DecidableEq, Repr

/-- One line delivered by r.iter_lines() inside ollama_chat: an empty
line (skipped), a line parsing to a JSON chunk, a non-empty line that is
not valid JSON (json.loads raises), or a transport error raised by the
iteration itself (a RequestException). -/
inductive Line where
  | emptyLine
  | jsonLine (c : Chunk)
  | badLine
  | transportErr (msg : String)
deriving DecidableEq, Repr

/-- The line loop of ollama_chat (src/app.py lines 82-89): skip empty
lines, parse each remaining line, yield the message content when present,
break after a chunk whose done flag is truthy. Returns the fragments
yielded before the generator finished, paired with the exception it
raised (none when it ended normally, by done or by exhaustion). -/
def streamLines : List Line → List String × Option PyError
  | [] => ([], none)
  | .emptyLine :: rest => streamLines rest
  | .badLine :: _ => ([], some .jsonDecodeError)
  | .transportErr m :: _ => ([], some (.requestException m))
  | .jsonLine c :: rest =>
      let yielded := c.content.toList
      if c.done then (yielded, none)
      else
        let r := streamLines rest
        (yielded ++ r.1, r.2)

/-- What the backend interaction does on a given turn: the POST itself
(or raise_for_status) fails with a transport error, or a stream of lines
is delivered. -/
inductive BackendBehavior where
  | connectFail (msg : String)
  | stream (lines : List Line)
deriving DecidableEq, Repr

/-- ollama_chat (src/app.py lines 68-89) as observed by its consumer:
the fragments it yields and the exception, if any, that ends it. -/
def ollama_chat (b : BackendBehavior) : List String × Option PyError :=
  match b with
  | .connectFail m => ([], some (.requestException m))
  | .stream lines => streamLines lines

/-- The prefix of a chunk list up to and including the first chunk whose
done flag is set (the whole list when no chunk is done). -/
def upToFirstDone : List Chunk → List Chunk
  | [] => []
  | c :: rest => if c.done then [c] else c :: upToFirstDone rest

/-- A line that the loop consumes without raising and without breaking:
an empty line or a JSON chunk whose done flag is false. -/
def benignNonDone : Line → Bool
  | .emptyLine => true
  | .jsonLine c => !c.done
  | _ => false

/-- The content a single line contributes to the yielded fragments. -/
def lineContent : Line → Option String
  | .jsonLine c => c.content
  | _ => none

/-- The assistant text substituted by the interaction loop's except
clause (src/app.py line 217), with OLLAMA_BASE_URL inlined as in the
f-string. -/
def errorText (e : String) : String :=
  "⚠️ Nova couldn’t reach Ollama at http://localhost:11434.\n\nError: " ++ e ++
    "\n\nMake sure Ollama is running and the model exists."

/-- The except clause at src/app.py line 216 catches only
requests.exceptions.RequestException; it substitutes the error banner for
the assistant text. Any other exception (such as json.JSONDecodeError)
propagates: the handler returns none for it. -/
def loopHandler : PyError → Option String
  | .requestException m => some (errorText m)
  | .jsonDecodeError => none

/-- Observable outcome of one user turn (src/app.py lines 193-220):
the message list sent to ollama_chat, the persisted session list
st.session_state messages after the turn, and whether an uncaught
exception escaped the turn. -/
structure TurnResult where
  sent : List Message
  stored : List Message
  crashed : Bool
deriving DecidableEq, Repr

/-- One user turn of the interaction loop (src/app.py lines 193-220):
append the user message to the session, build send_messages as the
stripped preset system prompt followed by the full session history, run
ollama_chat accumulating yielded fragments into assistant_text, and on a
caught transport error replace assistant_text with the error banner;
finally append the assistant message — unless an uncaught exception
escaped, in which case line 220 never runs. -/
def runTurn (p : PresetName) (history : List Message) (userText : String)
    (b : BackendBehavior) : TurnResult :=
  let system_prompt := pyStrip (PRESETS p)
  let history1 := history ++ [{ role := "user", content := userText }]
  let send_messages : List Message :=
    { role := "system", content := system_prompt } :: history1
  match ollama_chat b with
  | (frags, none) =>
      ⟨send_messages,
       history1 ++ [{ role := "assistant", content := String.join frags }],
       false⟩
  | (_, some e) =>
      match loopHandler e with
      | some txt =>
          ⟨send_messages,
           history1 ++ [{ role := "assistant", content := txt }],
           false⟩
      | none => ⟨send_messages, history1, true⟩

/-- A character kept by the title sanitizer of autosave_session
(src/app.py line 102): alphanumeric, space, hyphen or underscore
(ASCII model of str.isalnum). -/
def keptChar (c : Char) : Bool :=
  c.isAlphanum || c = ' ' || c = '-' || c = '_'

/-- Per-character sanitization of autosave_session line 102: keep the
character if allowed, otherwise replace it with an underscore. -/
def sanitizeChar (c : Char) : Char :=
  if keptChar c then c else '_'

/-- The safe token of autosave_session (src/app.py lines 102-104): map
every character, strip the result, and fall back to the default token
when the stripped result is empty. -/
def sanitizeTitle (title : String) : String :=
  let safe := pyStrip (String.mk (title.data.map sanitizeChar))
  if safe = "" then "Nova Session" else safe

/-- A JSON value, as far as the app's documents need: the snapshot
document written by autosave_session and the tags response consumed by
ollama_tags. Timestamps are modelled as numbers (seconds) rather than
ISO strings, so that before/after comparisons are arithmetic. -/
inductive Json where
  | str (s : String)
  | num (n : Nat)
  | bool (b : Bool)
  | arr (xs : List Json)
  | obj (fields : List (String × Json))
deriving Repr

/-- Field access on a JSON object, none on any other shape. -/
def Json.getField : Json → String → Option Json
  | .obj fs, k => fs.lookup k
  | _, _ => none

/-- The string carried by a JSON value, none on any other shape. -/
def Json.asString : Json → Option String
  | .str s => some s
  | _ => none

/-- The number carried by a JSON value, none on any other shape. -/
def Json.asNum : Json → Option Nat
  | .num n => some n
  | _ => none

/-- The element list of a JSON array, none on any other shape. -/
def Json.asArr : Json → Option (List Json)
  | .arr xs => some xs
  | _ => none

/-- json.dump encoding of one message dict. -/
def msgJson (m : Message) : Json :=
  .obj [("role", .str m.role), ("content", .str m.content)]

/-- Parse one message object back from JSON: read the role and content
fields as strings. -/
def decodeMsg (j : Json) : Option Message := do
  let r ← j.getField "role" >>= Json.asString
  let c ← j.getField "content" >>= Json.asString
  pure { role := r, content := c }

/-- Parse a list of message objects back from JSON, failing if any
element fails. -/
def decodeMsgs : List Json → Option (List Message)
  | [] => some []
  | j :: js => do
      let m ← decodeMsg j
      let ms ← decodeMsgs js
      pure (m :: ms)

/-- Parse a snapshot document back from JSON: title, saved_at and the
message list. -/
def decodeSessionDoc (j : Json) : Option (String × Nat × List Message) := do
  let t ← j.getField "title" >>= Json.asString
  let s ← j.getField "saved_at" >>= Json.asNum
  let rawMsgs ← j.getField "messages" >>= Json.asArr
  let ms ← decodeMsgs rawMsgs
  pure (t, s, ms)

/-- autosave_session (src/app.py lines 101-118): sanitize the title into
the filename token, append the timestamp, and write the JSON document
with the original unsanitized title, the saved_at time, and the messages.
The two datetime.now() samples (the filename timestamp, then saved_at)
are passed in as tFile and tSave; the result is the filename and the
document written. -/
def autosave_session (session_title : String) (messages : List Message)
    (tFile tSave : Nat) : String × Json :=
  let safe := sanitizeTitle session_title
  let path := safe ++ "_" ++ toString tFile ++ ".json"
  (path,
   .obj [("title", .str session_title),
         ("saved_at", .num tSave),
         ("messages", .arr (messages.map msgJson))])

/-- Python sep.join: empty on no pieces, otherwise the pieces with the
separator between consecutive pieces. -/
def joinWith (sep : String) : List String → String
  | [] => ""
  | [x] => x
  | x :: y :: xs => x ++ sep ++ joinWith sep (y :: xs)

/-- export_markdown (src/app.py lines 92-98): a title heading, a blank
line, then per message a block of a role heading, a blank line and the
stripped content; the blocks are joined with newlines, the whole string
stripped and a final newline appended. -/
def export_markdown (title : String) (messages : List Message) : String :=
  let out := ["# " ++ title, ""] ++
    messages.map (fun m =>
      "## " ++ pyCapitalize m.role ++ "\n\n" ++ pyStrip m.content ++ "\n")
  pyStrip (joinWith "\n" out) ++ "\n"

/-- Extraction step of ollama_tags (src/app.py line 63) on a decoded
response body: data.get with default of the empty list, then the name
field of each entry; none models a raised exception (non-dict data,
non-list models value, or an entry without a usable name field). -/
def extractNames (data : Json) : Option (List Json) :=
  match data with
  | .obj fields =>
      match fields.lookup "models" with
      | none => some []
      | some (.arr entries) => entries.mapM (fun j : Json => j.getField "name")
      | some _ => none
  | _ => none

/-- ollama_tags (src/app.py lines 57-65): the request outcome is either a
raised exception (error) or a decoded JSON body; every exception, whether
from the request or from the extraction, is swallowed by the bare except
and turned into the empty list. -/
def ollama_tags (outcome : Except Unit Json) : List Json :=
  match outcome with
  | .error _ => []
  | .ok data => (extractNames data).getD []

/-! ### Helper lemmas -/

/-- None of the four preset prompts has leading or trailing whitespace,
so the strip at src/app.py line 195 leaves each of them unchanged. -/
lemma strip_PRESETS (p : PresetName) : pyStrip (PRESETS p) = PRESETS p := by
  cases p <;> rfl

/-- The error banner is never the empty string. -/
lemma errorText_ne_empty (m : String) : errorText m ≠ "" := by
  intro hc
  have hd : (errorText m).data = ("" : String).data := by rw [hc]
  simp only [errorText, String.data_append] at hd
  simp at hd

/-- Consuming a prefix of benign non-done lines yields exactly their
contents and continues with the rest of the stream. -/
lemma streamLines_benign_append (pre suffix : List Line)
    (hb : ∀ l ∈ pre, benignNonDone l = true) :
    streamLines (pre ++ suffix) =
      (pre.filterMap lineContent ++ (streamLines suffix).1,
       (streamLines suffix).2) := by
  induction pre with
  | nil => simp
  | cons l pre ih =>
      have hbl := hb l (List.mem_cons_self l pre)
      have hbr : ∀ x ∈ pre, benignNonDone x = true :=
        fun x hx => hb x (List.mem_cons_of_mem l hx)
      cases l with
      | emptyLine => simpa [streamLines, lineContent] using ih hbr
      | jsonLine c =>
          have hd : c.done = false := by simpa [benignNonDone] using hbl
          cases hc : c.content <;>
            simp [streamLines, hd, hc, lineContent, ih hbr]
      | badLine => simp [benignNonDone] at hbl
      | transportErr m => simp [benignNonDone] at hbl

/-- decodeMsg inverts msgJson. -/
lemma decodeMsg_msgJson (m : Message) : decodeMsg (msgJson m) = some m := rfl

/-- decodeMsg inverts msgJson across a whole list. -/
lemma decodeMsgs_map_msgJson (ms : List Message) :
    decodeMsgs (ms.map msgJson) = some ms := by
  induction ms with
  | nil => rfl
  | cons m ms ih => simp [decodeMsgs, decodeMsg_msgJson, ih]

/-- Stripping a list without whitespace characters changes nothing. -/
lemma stripList_no_space (l : List Char)
    (h : ∀ c ∈ l, pyIsSpace c = false) : stripList l = l := by
  unfold stripList
  rw [List.dropWhile_eq_self_iff.2, List.rdropWhile_eq_self_iff.2]
  · intro hl
    simp [h _ (List.getLast_mem hl)]
  · intro hl
    simp [h _ (List.getElem_mem hl)]

/-! ### Claim C1 -/

/-- C1: On every user turn, the message list passed to the backend is
exactly one system message carrying the selected preset's prompt,
followed by the full session history including the just-appended user
message, in order, nothing more; and every message the turn appends to
the persisted session list has a role other than system. -/
theorem c1_backend_list_and_no_system_in_session
    (p : PresetName) (h : List Message) (u : String) (b : BackendBehavior) :
    (runTurn p h u b).sent =
      { role := "system", content := PRESETS p } ::
        (h ++ [{ role := "user", content := u }]) ∧
    ∃ app, (runTurn p h u b).stored = h ++ app ∧
      ∀ m ∈ app, m.role ≠ "system" := by
  have hs := strip_PRESETS p
  rcases hob : ollama_chat b with ⟨frags, e⟩
  refine ⟨?_, ?_⟩
  · rcases e with _ | e
    · simp [runTurn, hob, hs]
    · rcases he : loopHandler e with _ | txt <;> simp [runTurn, hob, hs, he]
  · rcases e with _ | e
    · refine ⟨[{ role := "user", content := u },
        { role := "assistant", content := String.join frags }], ?_, ?_⟩
      · simp [runTurn, hob]
      · intro m hm
        simp only [List.mem_cons, List.not_mem_nil, or_false] at hm
        rcases hm with rfl | rfl
        · show ("user" : String) ≠ "system"
          decide
        · show ("assistant" : String) ≠ "system"
          decide
    · rcases he : loopHandler e with _ | txt
      · refine ⟨[{ role := "user", content := u }], ?_, ?_⟩
        · simp [runTurn, hob, he]
        · intro m hm
          simp only [List.mem_cons, List.not_mem_nil, or_false] at hm
          subst hm
          show ("user" : String) ≠ "system"
          decide
      · refine ⟨[{ role := "user", content := u },
          { role := "assistant", content := txt }], ?_, ?_⟩
        · simp [runTurn, hob, he]
        · intro m hm
          simp only [List.mem_cons, List.not_mem_nil, or_false] at hm
          rcases hm with rfl | rfl
          · show ("user" : String) ≠ "system"
            decide
          · show ("assistant" : String) ≠ "system"
            decide

/-! ### Claim C2 -/

/-- C2 counterexample: the title of only exclamation marks is sanitized
to three underscores, not to the fallback token Nova Session — the
sanitizer replaces disallowed characters instead of deleting them, so
the stripped result is non-empty and the fallback branch is not taken. -/
theorem c2_sanitize_counterexample :
    sanitizeTitle "!!!" = "___" ∧ sanitizeTitle "!!!" ≠ "Nova Session" := by
  constructor
  · rfl
  · decide

/-- C2 amended: a non-empty title consisting only of disallowed
characters is sanitized to a string of underscores of the title's
length — in particular a non-empty token, never an empty filename
component; the fallback token is not involved. -/
theorem c2_sanitize_amended (title : String) (hne : title ≠ "")
    (hd : ∀ c ∈ title.data, keptChar c = false) :
    sanitizeTitle title = String.mk (List.replicate title.data.length '_') ∧
    sanitizeTitle title ≠ "" := by
  have hmap : title.data.map sanitizeChar = List.replicate title.data.length '_' := by
    rw [List.eq_replicate_iff]
    refine ⟨by simp, ?_⟩
    intro b hb
    rcases List.mem_map.1 hb with ⟨c, hc, rfl⟩
    simp [sanitizeChar, hd c hc]
  have hns : ∀ c ∈ List.replicate title.data.length '_', pyIsSpace c = false := by
    intro c hc
    rw [List.eq_of_mem_replicate hc]
    rfl
  have hlen : title.data.length ≠ 0 := by
    intro h0
    apply hne
    rcases title with ⟨l⟩
    rcases l with _ | ⟨c, l⟩
    · rfl
    · simp at h0
  have hsafe : pyStrip (String.mk (title.data.map sanitizeChar)) =
      String.mk (List.replicate title.data.length '_') := by
    simp only [pyStrip, hmap]
    rw [stripList_no_space _ hns]
  have hnemp : String.mk (List.replicate title.data.length '_') ≠ "" := by
    intro hc
    have h0 : List.replicate title.data.length '_' = ([] : List Char) :=
      congrArg String.data hc
    simp at h0
    exact hlen h0
  constructor
  · unfold sanitizeTitle
    rw [hsafe, if_neg hnemp]
  · unfold sanitizeTitle
    rw [hsafe, if_neg hnemp]
    exact hnemp

/-- C2 amended, witnessed at the title of the claim's example. -/
theorem c2_sanitize_amended_witness :
    sanitizeTitle "!!!" = String.mk (List.replicate ("!!!".data.length) '_') ∧
    sanitizeTitle "!!!" ≠ "" :=
  c2_sanitize_amended "!!!" (by decide) (by decide)

/-! ### Claim C3 -/

/-- C3: The fragments produced from a stream of JSON chunks are exactly
the content fields of the chunks up to and including the first chunk
whose done flag is set — so their concatenation is the concatenation of
those content fields and nothing after the done chunk is yielded — and
the generator ends without raising; in particular the chunks Hel, lo,
done, XX produce exactly Hel and lo, which concatenate to Hello. -/
theorem c3_stream_fragments_until_done :
    (∀ cs : List Chunk,
        streamLines (cs.map Line.jsonLine) =
          ((upToFirstDone cs).filterMap Chunk.content, none)) ∧
    streamLines [Line.jsonLine ⟨some "Hel", false⟩,
        Line.jsonLine ⟨some "lo", false⟩, Line.jsonLine ⟨none, true⟩,
        Line.jsonLine ⟨some "XX", false⟩] = (["Hel", "lo"], none) ∧
    String.join ["Hel", "lo"] = "Hello" := by
  refine ⟨?_, rfl, rfl⟩
  intro cs
  induction cs with
  | nil => rfl
  | cons c rest ih =>
      cases hd : c.done
      · cases hc : c.content <;>
          simp [streamLines, upToFirstDone, hd, hc, ih]
      · cases hc : c.content <;>
          simp [streamLines, upToFirstDone, hd, hc]

/-! ### Claim C4 -/

/-- C4: Whenever the backend call ends the turn with a transport error
(a RequestException, whether on connect or mid-stream), the loop
appends the user message and an assistant message whose content is the
non-empty error banner: the session grows by exactly two entries and
the turn completes without an uncaught exception. -/
theorem c4_transport_error_turn (p : PresetName) (h : List Message)
    (u : String) (b : BackendBehavior) (m : String)
    (he : (ollama_chat b).2 = some (.requestException m)) :
    (runTurn p h u b).stored =
      h ++ [{ role := "user", content := u },
            { role := "assistant", content := errorText m }] ∧
    errorText m ≠ "" ∧
    (runTurn p h u b).stored.length = h.length + 2 ∧
    (runTurn p h u b).crashed = false := by
  rcases hob : ollama_chat b with ⟨frags, e⟩
  rw [hob] at he
  simp only at he
  subst he
  refine ⟨?_, errorText_ne_empty m, ?_, ?_⟩ <;>
    simp [runTurn, hob, loopHandler]

/-- C4 witnessed at a concrete connection failure with empty history. -/
theorem c4_transport_error_turn_witness :
    (runTurn .default [] "hi" (.connectFail "boom")).stored =
      [] ++ [{ role := "user", content := "hi" },
             { role := "assistant", content := errorText "boom" }] ∧
    errorText "boom" ≠ "" ∧
    (runTurn .default [] "hi" (.connectFail "boom")).stored.length =
      List.length ([] : List Message) + 2 ∧
    (runTurn .default [] "hi" (.connectFail "boom")).crashed = false :=
  c4_transport_error_turn .default [] "hi" (.connectFail "boom") "boom" rfl

/-! ### Claim C5 -/

/-- Two strings with the same character data are equal. -/
lemma String_eq_of_data (a b : String) (h : a.data = b.data) : a = b :=
  congrArg String.mk h

/-- String.join of an empty list. -/
lemma String_join_nil : String.join ([] : List String) = "" := rfl

/-- String.join peels off the head piece. -/
lemma String_join_cons (a : String) (l : List String) :
    String.join (a :: l) = a ++ String.join l := by
  rw [String.join_eq, String.join_eq]
  rfl

/-- String.join peels off the last piece. -/
lemma String_join_concat (l : List String) (x : String) :
    String.join (l ++ [x]) = String.join l ++ x := by
  induction l with
  | nil => simp [String_join_cons, String_join_nil, String.append_empty]
  | cons y ys ih => simp [String_join_cons, ih, String.append_assoc]

/-- Python newline-join of a non-empty list: the head followed by each
further piece prefixed with a newline. -/
lemma joinWith_nl_eq_join (b : String) (bs : List String) :
    joinWith "\n" (b :: bs) = b ++ String.join (bs.map (fun x => "\n" ++ x)) := by
  induction bs generalizing b with
  | nil => simp [joinWith, String_join_nil, String.append_empty]
  | cons x xs ih =>
      rw [show joinWith "\n" (b :: x :: xs) =
        b ++ "\n" ++ joinWith "\n" (x :: xs) from rfl, ih x]
      simp [String_join_cons, String.append_assoc]

lemma data_hash_space : ("# " : String).data = ['#', ' '] := rfl

lemma data_nl : ("\n" : String).data = ['\n'] := rfl

lemma data_hh_space : ("## " : String).data = ['#', '#', ' '] := rfl

lemma data_nlnl : ("\n\n" : String).data = ['\n', '\n'] := rfl

/-- Stripping a list that starts with a hash and ends with a non-space
character followed by one newline removes exactly that final newline. -/
lemma stripList_shape (tail : List Char) (b : Char)
    (hb : pyIsSpace b = false) :
    stripList ('#' :: (tail ++ [b, '\n'])) = '#' :: (tail ++ [b]) := by
  unfold stripList
  rw [List.dropWhile_cons, if_neg (by decide : ¬(pyIsSpace '#' = true))]
  have h2 : '#' :: (tail ++ [b, '\n']) = (('#' :: tail) ++ [b]) ++ ['\n'] := by
    simp
  rw [h2,
    List.rdropWhile_concat_pos pyIsSpace (('#' :: tail) ++ [b]) '\n' rfl,
    List.rdropWhile_concat_neg pyIsSpace ('#' :: tail) b (by simp [hb])]
  simp

/-- A non-empty stripped string ends in a non-whitespace character. -/
lemma pyStrip_data_concat (s : String) (h : pyStrip s ≠ "") :
    ∃ ci b, (pyStrip s).data = ci ++ [b] ∧ pyIsSpace b = false := by
  have hne : (s.data.dropWhile pyIsSpace).rdropWhile pyIsSpace ≠ [] := by
    intro h0
    apply h
    show String.mk (stripList s.data) = ""
    unfold stripList
    rw [h0]
  have hlast := List.rdropWhile_last_not pyIsSpace
    (s.data.dropWhile pyIsSpace) hne
  refine ⟨((s.data.dropWhile pyIsSpace).rdropWhile pyIsSpace).dropLast,
    ((s.data.dropWhile pyIsSpace).rdropWhile pyIsSpace).getLast hne, ?_, ?_⟩
  · exact (List.dropLast_append_getLast hne).symm
  · simpa using hlast

/-- The heart of C5: appending one more newline to a title line, joined
blocks and a final block whose content ends in a non-space character is
undone by the final strip, so the strip-then-newline of export_markdown
is the identity on strings of this shape. -/
lemma pyStrip_block_append (A J R C : String) (ci : List Char) (b : Char)
    (hC : C.data = ci ++ [b]) (hb : pyIsSpace b = false) :
    pyStrip (("# " ++ A ++ "\n") ++
        (J ++ ("\n" ++ ("## " ++ R ++ "\n\n" ++ C ++ "\n")))) ++ "\n" =
      ("# " ++ A ++ "\n") ++
        (J ++ ("\n" ++ ("## " ++ R ++ "\n\n" ++ C ++ "\n"))) := by
  set s : String := ("# " ++ A ++ "\n") ++
    (J ++ ("\n" ++ ("## " ++ R ++ "\n\n" ++ C ++ "\n"))) with hs
  have hdataT : s.data =
      '#' :: ((' ' :: (A.data ++ '\n' :: (J.data ++ '\n' :: '#' :: '#' ::
        ' ' :: (R.data ++ '\n' :: '\n' :: ci)))) ++ [b, '\n']) := by
    rw [hs]
    simp only [String.data_append, hC, data_hash_space, data_nl,
      data_hh_space, data_nlnl, List.cons_append, List.nil_append,
      List.append_assoc]
  have h1 : stripList s.data =
      '#' :: ((' ' :: (A.data ++ '\n' :: (J.data ++ '\n' :: '#' :: '#' ::
        ' ' :: (R.data ++ '\n' :: '\n' :: ci)))) ++ [b]) := by
    rw [hdataT]
    exact stripList_shape _ b hb
  apply String_eq_of_data
  show stripList s.data ++ ['\n'] = s.data
  rw [h1, hdataT]
  simp

/-- C5: For every title and every sequence of messages with
non-whitespace content (the degenerate all-whitespace content case
aside, where there is no content for a blank line to precede), the
export is exactly the title heading, then for each message in original
order a newline, its role heading with the role capitalized, one blank
line, and its stripped content — nothing else. -/
theorem c5_export_markdown_shape (title : String) (messages : List Message)
    (hne : messages ≠ [])
    (hc : ∀ m ∈ messages, pyStrip m.content ≠ "") :
    export_markdown title messages =
      "# " ++ title ++ "\n" ++
        String.join (messages.map (fun m =>
          "\n" ++ ("## " ++ pyCapitalize m.role ++ "\n\n" ++
            pyStrip m.content ++ "\n"))) := by
  have hraw : joinWith "\n" (["# " ++ title, ""] ++ messages.map (fun m =>
        "## " ++ pyCapitalize m.role ++ "\n\n" ++ pyStrip m.content ++ "\n")) =
      "# " ++ title ++ "\n" ++ String.join (messages.map (fun m =>
        "\n" ++ ("## " ++ pyCapitalize m.role ++ "\n\n" ++
          pyStrip m.content ++ "\n"))) := by
    rw [List.cons_append, List.cons_append, List.nil_append,
      joinWith_nl_eq_join, List.map_cons, String_join_cons,
      String.append_empty, List.map_map]
    simp only [String.append_assoc]
    rfl
  simp only [export_markdown]
  rw [hraw]
  rcases messages.eq_nil_or_concat' with rfl | ⟨init, mLast, rfl⟩
  · exact absurd rfl hne
  · have hCne : pyStrip mLast.content ≠ "" := hc mLast (by simp)
    rcases pyStrip_data_concat mLast.content hCne with ⟨ci, b, hdata, hb⟩
    simp only [List.map_append, List.map_cons, List.map_nil,
      String_join_concat]
    exact pyStrip_block_append _ _ _ _ _ _ hdata hb

/-- C5 witnessed at a two-message session. -/
theorem c5_export_markdown_shape_witness :
    export_markdown "T" [⟨"user", "hi"⟩, ⟨"assistant", "yo"⟩] =
      "# " ++ "T" ++ "\n" ++
        String.join ([Message.mk "user" "hi",
          Message.mk "assistant" "yo"].map (fun m =>
          "\n" ++ ("## " ++ pyCapitalize m.role ++ "\n\n" ++
            pyStrip m.content ++ "\n"))) :=
  c5_export_markdown_shape "T" [⟨"user", "hi"⟩, ⟨"assistant", "yo"⟩]
    (by simp) (by decide)

/-! ### Claim C6 -/

/-- C6: autosave_session round-trips — parsing the document it writes
yields exactly the unsanitized input title, the input message list, and
a saved_at no earlier than the start of the call (t0 is the call's
start; the two clock samples taken during the call are monotone). -/
theorem c6_snapshot_roundtrip (title : String) (msgs : List Message)
    (t0 tFile tSave : Nat) (h1 : t0 ≤ tFile) (h2 : tFile ≤ tSave) :
    decodeSessionDoc (autosave_session title msgs tFile tSave).2 =
      some (title, tSave, msgs) ∧ t0 ≤ tSave := by
  constructor
  · rw [show decodeSessionDoc (autosave_session title msgs tFile tSave).2 =
      (decodeMsgs (msgs.map msgJson)).bind
        (fun ms => some (title, tSave, ms)) from rfl]
    rw [decodeMsgs_map_msgJson]
    rfl
  · exact le_trans h1 h2

/-- C6 witnessed at a title the sanitizer would alter, showing the
stored title is the unsanitized one. -/
theorem c6_snapshot_roundtrip_witness :
    decodeSessionDoc
        (autosave_session "My: Session?" [⟨"user", "hi"⟩] 5 7).2 =
      some ("My: Session?", 7, [⟨"user", "hi"⟩]) ∧ 4 ≤ 7 :=
  c6_snapshot_roundtrip "My: Session?" [⟨"user", "hi"⟩] 4 5 7 (by decide)
    (by decide)

/-! ### Claim C7 -/

/-- C7: ollama_tags returns the empty list on a raised request error and
on any body whose extraction raises; when every entry of the models list
has a name field, it returns exactly those name fields in order. -/
theorem c7_list_models_behavior :
    (∀ e : Unit, ollama_tags (.error e) = []) ∧
    (∀ data : Json, extractNames data = none → ollama_tags (.ok data) = []) ∧
    (∀ (entries names : List Json),
        entries.mapM (fun j : Json => j.getField "name") = some names →
        ollama_tags (.ok (.obj [("models", .arr entries)])) = names) := by
  refine ⟨?_, ?_, ?_⟩
  · intro e
    rfl
  · intro data hd
    simp [ollama_tags, hd]
  · intro entries names hmn
    rw [show ollama_tags (.ok (.obj [("models", .arr entries)])) =
      (entries.mapM (fun j : Json => j.getField "name")).getD [] from rfl, hmn]
    rfl

/-- C7 witnessed on a request failure, a malformed body, and a
well-formed two-model body with extra fields. -/
theorem c7_list_models_behavior_witness :
    ollama_tags (.error ()) = [] ∧
    ollama_tags (.ok (.obj [("models", .str "oops")])) = [] ∧
    ollama_tags (.ok (.obj [("models", .arr
        [.obj [("name", .str "llama3.1:8b"), ("size", .num 7)],
         .obj [("name", .str "mistral")]])])) =
      [.str "llama3.1:8b", .str "mistral"] :=
  ⟨c7_list_models_behavior.1 (),
   c7_list_models_behavior.2.1 (.obj [("models", .str "oops")]) rfl,
   c7_list_models_behavior.2.2
     [.obj [("name", .str "llama3.1:8b"), ("size", .num 7)],
      .obj [("name", .str "mistral")]]
     [.str "llama3.1:8b", .str "mistral"] rfl⟩

/-! ### Claim C8 -/

/-- C8: A malformed non-empty line makes ollama_chat raise a
JSON-decoding error after yielding the fragments of the benign lines
before it; that error is not caught by the loop's RequestException
handler, so the turn crashes with only the user message appended — the
malformed chunk is not skipped. -/
theorem c8_malformed_chunk_uncaught :
    loopHandler .jsonDecodeError = none ∧
    (∀ pre rest : List Line, (∀ l ∈ pre, benignNonDone l = true) →
        streamLines (pre ++ Line.badLine :: rest) =
          (pre.filterMap lineContent, some .jsonDecodeError)) ∧
    (∀ (p : PresetName) (h : List Message) (u : String) (lines : List Line),
        (streamLines lines).2 = some .jsonDecodeError →
        (runTurn p h u (.stream lines)).crashed = true ∧
        (runTurn p h u (.stream lines)).stored =
          h ++ [{ role := "user", content := u }]) := by
  refine ⟨rfl, ?_, ?_⟩
  · intro pre rest hb
    rw [streamLines_benign_append pre (Line.badLine :: rest) hb]
    simp [streamLines]
  · intro p h u lines he
    rcases hsl : streamLines lines with ⟨frags, e⟩
    rw [hsl] at he
    simp only at he
    subst he
    constructor <;> simp [runTurn, ollama_chat, hsl, loopHandler]

/-- C8 witnessed at a stream of one good chunk followed by a malformed
line. -/
theorem c8_malformed_chunk_uncaught_witness :
    streamLines ([Line.jsonLine ⟨some "Hel", false⟩] ++ Line.badLine :: []) =
      (["Hel"], some .jsonDecodeError) ∧
    (runTurn .default [] "hi"
        (.stream [Line.jsonLine ⟨some "Hel", false⟩, Line.badLine])).crashed =
      true ∧
    (runTurn .default [] "hi"
        (.stream [Line.jsonLine ⟨some "Hel", false⟩, Line.badLine])).stored =
      [] ++ [{ role := "user", content := "hi" }] :=
  ⟨c8_malformed_chunk_uncaught.2.1 [Line.jsonLine ⟨some "Hel", false⟩] []
     (by decide),
   (c8_malformed_chunk_uncaught.2.2 .default [] "hi"
     [Line.jsonLine ⟨some "Hel", false⟩, Line.badLine] rfl).1,
   (c8_malformed_chunk_uncaught.2.2 .default [] "hi"
     [Line.jsonLine ⟨some "Hel", false⟩, Line.badLine] rfl).2⟩

/-! ### Claim C9 -/

/-- C9: When a transport error is raised mid-stream the recorded
assistant content is exactly the error banner: assistant_text is
reassigned in the except clause, so fragments accumulated before the
failure are discarded, not prepended. -/
theorem c9_partial_fragments_discarded (p : PresetName) (h : List Message)
    (u : String) (lines : List Line) (m : String)
    (he : (streamLines lines).2 = some (.requestException m)) :
    (runTurn p h u (.stream lines)).stored =
      h ++ [{ role := "user", content := u },
            { role := "assistant", content := errorText m }] := by
  rcases hsl : streamLines lines with ⟨frags, e⟩
  rw [hsl] at he
  simp only at he
  subst he
  simp [runTurn, ollama_chat, hsl, loopHandler]

/-- C9 witnessed at a stream that yields a fragment and then fails:
the fragment list is non-empty, yet the stored assistant content is
the bare error banner. -/
theorem c9_partial_fragments_discarded_witness :
    (streamLines [Line.jsonLine ⟨some "Hel", false⟩,
        Line.transportErr "reset"]).1 = ["Hel"] ∧
    (runTurn .default [] "hi"
        (.stream [Line.jsonLine ⟨some "Hel", false⟩,
          Line.transportErr "reset"])).stored =
      [] ++ [{ role := "user", content := "hi" },
             { role := "assistant", content := errorText "reset" }] :=
  ⟨rfl,
   c9_partial_fragments_discarded .default [] "hi"
     [Line.jsonLine ⟨some "Hel", false⟩, Line.transportErr "reset"]
     "reset" rfl⟩

/-! ### Claim C10 -/

/-- C10: A stream exhausted without any done chunk still ends the
generator normally, after yielding the content of every chunk that
carries one and skipping empty lines — a done signal is sufficient but
not necessary for termination. -/
theorem c10_stream_without_done_terminates (lines : List Line)
    (hb : ∀ l ∈ lines, benignNonDone l = true) :
    streamLines lines = (lines.filterMap lineContent, none) := by
  have h := streamLines_benign_append lines [] hb
  simpa [streamLines] using h

/-- C10 witnessed at a done-free stream with empty lines and a
content-free chunk interspersed. -/
theorem c10_stream_without_done_terminates_witness :
    streamLines [Line.emptyLine, Line.jsonLine ⟨some "a", false⟩,
        Line.jsonLine ⟨none, false⟩, Line.emptyLine,
        Line.jsonLine ⟨some "b", false⟩] =
      (["a", "b"], none) :=
  c10_stream_without_done_terminates
    [Line.emptyLine, Line.jsonLine ⟨some "a", false⟩,
     Line.jsonLine ⟨none, false⟩, Line.emptyLine,
     Line.jsonLine ⟨some "b", false⟩] (by decide)

end Nova
